import Mathlib

/-
Shallow embedding of the model-adapter registry
(src/tno/aimms_adapter/model/model.py and src/tno/aimms_adapter/data_types.py).

The registry `Model.model_run_dict` is a Python dict from run ids to records;
we embed it as an association list with the dict's insertion-order iteration
semantics.  Run ids are produced by `uuid4()`; we model the id supply as a
counter (`nextId`), making the "fresh unique id" guarantee of `uuid4`
explicit.  The Minio object store and the local file system are modelled as a
list of emitted `StorageWrite` effects, and a raised Python exception as
`Except.error`.  The abstract method `process_results` is a parameter
(`proc : String → String`); Python truthiness of its string result is
non-emptiness.
-/

namespace Adapter

/-- data_types.py:9-17, `class ModelState(str, Enum)`. -/
inductive ModelState where
  | UNKNOWN
  | PENDING
  | ACCEPTED
  | QUEUED
  | READY
  | RUNNING
  | SUCCEEDED
  | ERROR
deriving DecidableEq, Repr

/-- data_types.py:20-25, `OperaAdapterConfig`: four optional path fields. -/
structure OperaAdapterConfig where
  input_esdl_file_path_1 : Option String
  input_esdl_file_path_2 : Option String
  output_esdl_file_path : Option String
  base_path : Option String
deriving DecidableEq, Repr

/-- The `result` dict a record can hold after `store_result`
(model.py:104-110): either `{"path": path}` or `{"result": res}`. -/
inductive StoredResult where
  | pathRes (path : String)
  | rawRes (value : String)
deriving DecidableEq, Repr

/-- data_types.py:28-32, `ModelRun`: one registry record. -/
structure ModelRun where
  state : ModelState
  config : Option OperaAdapterConfig
  result : Option StoredResult
deriving DecidableEq, Repr

/-- data_types.py:35-40, `ModelRunInfo`: the response value of every
operation.  Defaults in Python: `state = UNKNOWN`, `result = None`,
`reason = None`; we always fill all fields explicitly. -/
structure ModelRunInfo where
  model_run_id : Nat
  state : ModelState
  result : Option StoredResult
  reason : Option String
deriving DecidableEq, Repr

/-- The registry dict, keyed by run id, in insertion order. -/
abbrev Registry := List (Nat × ModelRun)

/-- Dict lookup `model_run_dict[id]` / membership `id in model_run_dict`:
first (in a dict: only) entry with the key. -/
def findRun : Registry → Nat → Option ModelRun
  | [], _ => none
  | (k, r) :: rest, id => if k = id then some r else findRun rest id

/-- Dict value update at an existing key (record field mutation in Python):
replaces the value at the first occurrence of the key, keeping its position,
as a Python dict does. -/
def setRun : Registry → Nat → ModelRun → Registry
  | [], _, _ => []
  | (k, r) :: rest, id, r' =>
      if k = id then (k, r') :: rest else (k, r) :: setRun rest id r'

/-- `del model_run_dict[id]` (model.py:177): removes the entry with the key. -/
def eraseRun : Registry → Nat → Registry
  | [], _ => []
  | (k, r) :: rest, id => if k = id then rest else (k, r) :: eraseRun rest id

/-- Dict assignment `model_run_dict[id] = record`: overwrites in place when
the key exists, appends at the end when it is new (Python 3.7 dict order). -/
def insertRun (reg : Registry) (id : Nat) (r : ModelRun) : Registry :=
  match findRun reg id with
  | some _ => setRun reg id r
  | none => reg ++ [(id, r)]

/-- Reading `model_run_dict[id].state` right after the record was stored or
checked present; the `UNKNOWN` branch is unreachable at every call site. -/
def stateOf (reg : Registry) (id : Nat) : ModelState :=
  match findRun reg id with
  | some r => r.state
  | none => ModelState.UNKNOWN

/-- One storage side effect of `store_result` (model.py:85-102): a Minio
`put_object` (bucket, object path, content) or a local file write
(filename, content). -/
inductive StorageWrite where
  | minioPut (bucket : String) (objectPath : String) (content : String)
  | fileWrite (filename : String) (content : String)
deriving DecidableEq, Repr

/-- model.py:15-34, the `Model` state: the run registry, the id supply
(uuid4 modelled as a counter), and whether a Minio client is configured
(`EnvSettings.minio_endpoint()` non-empty). -/
structure Model where
  model_run_dict : Registry
  nextId : Nat
  hasMinio : Bool
deriving DecidableEq, Repr

/-- model.py:36-47, `Model.request`: allocate a fresh id, store a record with
`state = ACCEPTED`, `config = None`, `result = None`, and return a
`ModelRunInfo` whose state is read back from the stored record. -/
def request (m : Model) : Model × ModelRunInfo :=
  let id := m.nextId
  let dict := insertRun m.model_run_dict id ⟨ModelState.ACCEPTED, none, none⟩
  (⟨dict, id + 1, m.hasMinio⟩, ⟨id, stateOf dict id, none, none⟩)

/-- model.py:49-62, `Model.initialize` (named `initRun` here because
the source's name is a Lean keyword): if the id is known, set `config` and
set `state = READY`; otherwise return an ERROR info and leave the registry
unchanged.  The Python parameter default is `config=None`. -/
def initRun (m : Model) (id : Nat) (config : Option OperaAdapterConfig) :
    Model × ModelRunInfo :=
  match findRun m.model_run_dict id with
  | some r =>
      let dict := setRun m.model_run_dict id
        { r with config := config, state := ModelState.READY }
      (⟨dict, m.nextId, m.hasMinio⟩, ⟨id, stateOf dict id, none, none⟩)
  | none =>
      (m, ⟨id, ModelState.ERROR, none,
           some "Error in Model.initialize(): model_run_id unknown"⟩)

/-- model.py:80-120, `Model.store_result`.  `proc` is the abstract
`process_results`; a truthy (non-empty) processed result is written to Minio
or, without Minio, to a local `file://` path — any other path prefix raises
`IOError("Don't know how to write file " + path)`, modelled as
`Except.error`.  Reading `config.output_esdl_file_path` when `config` is
`None`, or slicing a `None` path, raises in Python too; those are the two
attribute/type error cases.  On success the record's `result` field is set
({"path": path} after a write, {"result": res} when `res` is falsy) and a
SUCCEEDED info is returned; the record's `state` field is never written.
The third component collects the storage writes performed
(`bucket_exists`/`make_bucket` administration at model.py:91-92 is not a
data write and is not recorded). -/
def store_result (proc : String → String) (m : Model) (id : Nat)
    (result : String) :
    Except String (Model × ModelRunInfo × List StorageWrite) :=
  match findRun m.model_run_dict id with
  | some r =>
      let res := proc result
      if res ≠ "" then
        match r.config with
        | none =>
            Except.error
              "AttributeError: NoneType object has no attribute output_esdl_file_path"
        | some cfg =>
            match cfg.output_esdl_file_path with
            | none => Except.error "TypeError: path is None"
            | some path =>
                let stored := setRun m.model_run_dict id
                  { r with result := some (StoredResult.pathRes path) }
                if m.hasMinio then
                  let parts := path.splitOn "/"
                  let bucket := parts.headD ""
                  let rest := String.intercalate "/" parts.tail
                  Except.ok (⟨stored, m.nextId, m.hasMinio⟩,
                    ⟨id, ModelState.SUCCEEDED, none, none⟩,
                    [StorageWrite.minioPut bucket rest res])
                else
                  if path.take 7 = "file://" then
                    Except.ok (⟨stored, m.nextId, m.hasMinio⟩,
                      ⟨id, ModelState.SUCCEEDED, none, none⟩,
                      [StorageWrite.fileWrite (path.drop 7) res])
                  else
                    Except.error ("Don't know how to write file " ++ path)
      else
        Except.ok
          (⟨setRun m.model_run_dict id
              { r with result := some (StoredResult.rawRes res) },
            m.nextId, m.hasMinio⟩,
           ⟨id, ModelState.SUCCEEDED, none, none⟩, [])
  | none =>
      Except.ok (m,
        ⟨id, ModelState.ERROR, none,
         some "Error in Model.store_result(): model_run_id unknown"⟩, [])

/-- model.py:122-143, `Model.run`: if the id is known and the state is READY,
transition to RUNNING and return the stored state; if known but not READY,
return the current state with the not-READY reason, registry untouched;
otherwise an ERROR info. -/
def run (m : Model) (id : Nat) : Model × ModelRunInfo :=
  match findRun m.model_run_dict id with
  | some r =>
      if r.state ≠ ModelState.READY then
        (m, ⟨id, r.state, none, some "Error: Model is not in READY state"⟩)
      else
        let dict := setRun m.model_run_dict id
          { r with state := ModelState.RUNNING }
        (⟨dict, m.nextId, m.hasMinio⟩, ⟨id, stateOf dict id, none, none⟩)
  | none =>
      (m, ⟨id, ModelState.ERROR, none,
           some "Error in Model.run(): model_run_id unknown"⟩)

/-- model.py:145-159, `Model.status`: dummy behaviour, sets the record's
state to SUCCEEDED once queried; ERROR info when the id is unknown. -/
def status (m : Model) (id : Nat) : Model × ModelRunInfo :=
  match findRun m.model_run_dict id with
  | some r =>
      let dict := setRun m.model_run_dict id
        { r with state := ModelState.SUCCEEDED }
      (⟨dict, m.nextId, m.hasMinio⟩, ⟨id, stateOf dict id, none, none⟩)
  | none =>
      (m, ⟨id, ModelState.ERROR, none,
           some "Error in Model.status(): model_run_id unknown"⟩)

/-- model.py:161-173, `Model.results`: pure read of the record's state and
result; ERROR info when the id is unknown. -/
def results (m : Model) (id : Nat) : ModelRunInfo :=
  match findRun m.model_run_dict id with
  | some r => ⟨id, r.state, r.result, none⟩
  | none =>
      ⟨id, ModelState.ERROR, none,
       some "Error in Model.results(): model_run_id unknown"⟩

/-- model.py:175-195, `Model.remove`: delete the record and return an UNKNOWN
info; ERROR info when the id is unknown.  The scan at model.py:179-183 walks
the remaining records for one in PENDING state, but its body (line 182)
evaluates the comparison `m.state == ModelState.ACCEPTED` and discards the
Boolean — `==`, not `=` — so the loop mutates nothing and the deletion is
the only registry change. -/
def remove (m : Model) (id : Nat) : Model × ModelRunInfo :=
  match findRun m.model_run_dict id with
  | some _ =>
      (⟨eraseRun m.model_run_dict id, m.nextId, m.hasMinio⟩,
       ⟨id, ModelState.UNKNOWN, none, none⟩)
  | none =>
      (m, ⟨id, ModelState.ERROR, none,
           some "Error in Model.remove(): model_run_id unknown"⟩)

/-- The operation language of the adapter: one constructor per public
method of `Model` (model.py). -/
inductive Op where
  | requestOp
  | initOp (id : Nat) (config : Option OperaAdapterConfig)
  | runOp (id : Nat)
  | statusOp (id : Nat)
  | submitOp (id : Nat) (raw : String)
  | resultsOp (id : Nat)
  | removeOp (id : Nat)
deriving DecidableEq, Repr

/-- The registry state after one operation.  A raised `IOError` in
`store_result` propagates before any registry mutation, so the state is
unchanged in the `Except.error` case. -/
def step (proc : String → String) (m : Model) : Op → Model
  | Op.requestOp => (request m).1
  | Op.initOp id cfg => (initRun m id cfg).1
  | Op.runOp id => (run m id).1
  | Op.statusOp id => (status m id).1
  | Op.submitOp id raw =>
      match store_result proc m id raw with
      | Except.ok (m', _, _) => m'
      | Except.error _ => m
  | Op.resultsOp _ => m
  | Op.removeOp id => (remove m id).1

/-- The registry state after a sequence of operations. -/
def runTrace (proc : String → String) (m : Model) : List Op → Model
  | [] => m
  | op :: ops => runTrace proc (step proc m op) ops

/-- The run ids handed out by the `request` calls of a trace, in order. -/
def allocatedIds (proc : String → String) (m : Model) : List Op → List Nat
  | [] => []
  | Op.requestOp :: ops =>
      m.nextId :: allocatedIds proc (step proc m Op.requestOp) ops
  | op :: ops => allocatedIds proc (step proc m op) ops

/-- Every registry key is below the id counter: the invariant that makes
`nextId` a fresh id. -/
def inv (m : Model) : Prop :=
  ∀ p ∈ m.model_run_dict, p.1 < m.nextId

/-- The registry state reached by deleting `id` and then executing a
sequence of further operations. -/
def afterRemove (proc : String → String) (m : Model) (id : Nat)
    (ops : List Op) : Model :=
  runTrace proc (remove m id).1 ops

/-! Concrete inputs used by counterexamples and witnesses. -/

/-- A subclass whose `process_results` returns its argument unchanged. -/
def procId : String → String := fun s => s

/-- A subclass whose `process_results` returns the empty string, which is
falsy in Python. -/
def procEmpty : String → String := fun _ => ""

def readyRun : ModelRun := ⟨ModelState.READY, none, none⟩

def runningRun : ModelRun := ⟨ModelState.RUNNING, none, none⟩

def pendingRun : ModelRun := ⟨ModelState.PENDING, none, none⟩

def cfgFile : OperaAdapterConfig := ⟨none, none, some "file:///tmp/out.esdl", none⟩

def cfgS3 : OperaAdapterConfig := ⟨none, none, some "s3://bucket/out.esdl", none⟩

def runningFileRun : ModelRun := ⟨ModelState.RUNNING, some cfgFile, none⟩

def s3Run : ModelRun := ⟨ModelState.RUNNING, some cfgS3, none⟩

def mEmpty : Model := ⟨[], 0, false⟩

def mReady : Model := ⟨[(0, readyRun)], 1, false⟩

def mRunning : Model := ⟨[(0, runningRun)], 1, false⟩

def mRunPending : Model := ⟨[(0, runningRun), (1, pendingRun)], 2, false⟩

def mRunningFile : Model := ⟨[(0, runningFileRun)], 1, false⟩

def mRunningFileAfter : Model :=
  ⟨[(0, ⟨ModelState.RUNNING, some cfgFile,
         some (StoredResult.pathRes "file:///tmp/out.esdl")⟩)], 1, false⟩

def mRunningS3 : Model := ⟨[(0, s3Run)], 1, false⟩

def mRunningAfterEmpty : Model :=
  ⟨[(0, ⟨ModelState.RUNNING, none, some (StoredResult.rawRes "")⟩)], 1, false⟩

deriving instance DecidableEq for Except

/-! Registry lemmas. -/

theorem findRun_setRun_self (reg : Registry) (id : Nat) (r r' : ModelRun)
    (h : findRun reg id = some r) :
    findRun (setRun reg id r') id = some r' := by
  induction reg with
  | nil => simp [findRun] at h
  | cons p rest ih =>
      obtain ⟨k, v⟩ := p
      by_cases hk : k = id
      · simp [findRun, setRun, hk]
      · simp [findRun, setRun, hk] at h ⊢
        exact ih h

theorem findRun_setRun_none (reg : Registry) (k id : Nat) (r' : ModelRun)
    (h : findRun reg id = none) :
    findRun (setRun reg k r') id = none := by
  induction reg with
  | nil => simp [setRun, findRun]
  | cons p rest ih =>
      obtain ⟨k0, v⟩ := p
      by_cases hk0 : k0 = id
      · simp [findRun, hk0] at h
      · by_cases hkk : k0 = k
        · simp [findRun, hk0] at h
          have hkid : ¬k = id := by rw [← hkk]; exact hk0
          simp [setRun, hkk, findRun, hkid, h]
        · simp [findRun, hk0] at h
          simp [setRun, hkk, findRun, hk0]
          exact ih h

theorem findRun_setRun_ne (reg : Registry) (id id' : Nat) (r' : ModelRun)
    (hne : id' ≠ id) :
    findRun (setRun reg id r') id' = findRun reg id' := by
  induction reg with
  | nil => simp [setRun]
  | cons p rest ih =>
      obtain ⟨k, v⟩ := p
      have hid : ¬id = id' := fun h => hne h.symm
      by_cases hk : k = id
      · simp [setRun, hk, findRun, hid]
      · by_cases hk' : k = id'
        · simp [setRun, hk, findRun, hk', hne]
        · simp [setRun, hk, findRun, hk']
          exact ih

theorem findRun_eraseRun_ne (reg : Registry) (id id' : Nat)
    (hne : id' ≠ id) :
    findRun (eraseRun reg id) id' = findRun reg id' := by
  induction reg with
  | nil => simp [eraseRun]
  | cons p rest ih =>
      obtain ⟨k, v⟩ := p
      have hid : ¬id = id' := fun h => hne h.symm
      by_cases hk : k = id
      · simp [eraseRun, hk, findRun, hid]
      · by_cases hk' : k = id'
        · simp [eraseRun, hk, findRun, hk', hne]
        · simp [eraseRun, hk, findRun, hk']
          exact ih

theorem findRun_eraseRun_none (reg : Registry) (k id : Nat)
    (h : findRun reg id = none) :
    findRun (eraseRun reg k) id = none := by
  induction reg with
  | nil => simp [eraseRun, findRun]
  | cons p rest ih =>
      obtain ⟨k0, v⟩ := p
      by_cases hk0 : k0 = id
      · simp [findRun, hk0] at h
      · simp [findRun, hk0] at h
        by_cases hkk : k0 = k
        · simpa [eraseRun, hkk] using h
        · simp [eraseRun, hkk, findRun, hk0]
          exact ih h

theorem findRun_append_none (reg l : Registry) (id : Nat)
    (h : findRun reg id = none) :
    findRun (reg ++ l) id = findRun l id := by
  induction reg with
  | nil => simp
  | cons p rest ih =>
      obtain ⟨k, v⟩ := p
      by_cases hk : k = id
      · simp [findRun, hk] at h
      · simp [findRun, hk] at h ⊢
        exact ih h

theorem findRun_append_singleton_ne (reg : Registry) (id id' : Nat)
    (r : ModelRun) (hne : id' ≠ id) :
    findRun (reg ++ [(id, r)]) id' = findRun reg id' := by
  induction reg with
  | nil => simp [findRun, Ne.symm hne]
  | cons p rest ih =>
      obtain ⟨k, v⟩ := p
      by_cases hk : k = id'
      · simp [findRun, hk]
      · simp [findRun, hk]
        exact ih

theorem findRun_insertRun_self (reg : Registry) (id : Nat) (r : ModelRun) :
    findRun (insertRun reg id r) id = some r := by
  unfold insertRun
  cases h : findRun reg id with
  | some v => exact findRun_setRun_self reg id v r h
  | none =>
      rw [findRun_append_none reg _ id h]
      simp [findRun]

theorem findRun_insertRun_ne (reg : Registry) (id id' : Nat) (r : ModelRun)
    (hne : id' ≠ id) :
    findRun (insertRun reg id r) id' = findRun reg id' := by
  unfold insertRun
  cases h : findRun reg id with
  | some v => exact findRun_setRun_ne reg id id' r hne
  | none => exact findRun_append_singleton_ne reg id id' r hne

theorem findRun_isNone_of_lt (reg : Registry) (n : Nat)
    (h : ∀ p ∈ reg, p.1 < n) :
    findRun reg n = none := by
  induction reg with
  | nil => simp [findRun]
  | cons p rest ih =>
      obtain ⟨k, v⟩ := p
      have hk : k < n := h (k, v) (List.mem_cons_self _ _)
      simp [findRun, Nat.ne_of_lt hk]
      exact ih fun q hq => h q (List.mem_cons_of_mem _ hq)

theorem findRun_some_mem (reg : Registry) (id : Nat) (r : ModelRun)
    (h : findRun reg id = some r) : (id, r) ∈ reg := by
  induction reg with
  | nil => simp [findRun] at h
  | cons p rest ih =>
      obtain ⟨k, v⟩ := p
      by_cases hk : k = id
      · simp [findRun, hk] at h
        simp [hk, h]
      · simp [findRun, hk] at h
        exact List.mem_cons_of_mem _ (ih h)

/-! Lemmas about the operations and traces. -/

theorem store_result_ok_shape (proc : String → String) (m : Model) (id : Nat)
    (raw : String) (m' : Model) (info : ModelRunInfo) (w : List StorageWrite)
    (h : store_result proc m id raw = Except.ok (m', info, w)) :
    m' = m ∨ ∃ rOld v, findRun m.model_run_dict id = some rOld ∧
      m'.model_run_dict =
        setRun m.model_run_dict id { rOld with result := some v } ∧
      m'.nextId = m.nextId ∧ m'.hasMinio = m.hasMinio := by
  cases hf : findRun m.model_run_dict id with
  | none =>
      simp only [store_result, hf, Except.ok.injEq, Prod.mk.injEq] at h
      exact Or.inl h.1.symm
  | some r =>
      by_cases hres : proc raw = ""
      · simp only [store_result, hf, hres, ne_eq, not_true_eq_false, if_false,
          ite_false, Except.ok.injEq, Prod.mk.injEq, not_false_eq_true] at h
        obtain ⟨h1, -, -⟩ := h
        subst h1
        exact Or.inr ⟨r, StoredResult.rawRes "", rfl, rfl, rfl, rfl⟩
      · cases hcfg : r.config with
        | none => simp [store_result, hf, hres, hcfg] at h
        | some cfg =>
            cases hpath : cfg.output_esdl_file_path with
            | none => simp [store_result, hf, hres, hcfg, hpath] at h
            | some path =>
                by_cases hm : m.hasMinio
                · simp only [store_result, hf, hres, hcfg, hpath, hm, ne_eq,
                    not_false_eq_true, if_true, ite_true, Except.ok.injEq,
                    Prod.mk.injEq] at h
                  obtain ⟨h1, -, -⟩ := h
                  subst h1
                  exact Or.inr ⟨r, StoredResult.pathRes path, rfl,
                    by rw [hcfg], rfl, by simp [hm]⟩
                · by_cases hp7 : path.take 7 = "file://"
                  · simp only [store_result, hf, hres, hcfg, hpath, hm, hp7,
                      ne_eq, not_false_eq_true, if_true, ite_true, if_false,
                      ite_false, Except.ok.injEq, Prod.mk.injEq,
                      Bool.false_eq_true] at h
                    obtain ⟨h1, -, -⟩ := h
                    subst h1
                    exact Or.inr ⟨r, StoredResult.pathRes path, rfl,
                      by rw [hcfg], rfl, by simp [hm]⟩
                  · simp [store_result, hf, hres, hcfg, hpath, hm, hp7] at h

theorem step_nextId_le (proc : String → String) (m : Model) (op : Op) :
    m.nextId ≤ (step proc m op).nextId := by
  cases op with
  | requestOp => exact Nat.le_succ m.nextId
  | initOp id cfg =>
      simp only [step, initRun]
      split <;> simp
  | runOp id =>
      simp only [step, run]
      split
      · split <;> simp
      · simp
  | statusOp id =>
      simp only [step, status]
      split <;> simp
  | submitOp id raw =>
      simp only [step]
      cases hs : store_result proc m id raw with
      | error e => exact Nat.le_refl _
      | ok t =>
          obtain ⟨m', info, w⟩ := t
          rcases store_result_ok_shape proc m id raw m' info w hs with
            heq | ⟨rOld, v, -, -, hn, -⟩
          · simp [heq]
          · simp [hn]
  | resultsOp id => exact Nat.le_refl _
  | removeOp id =>
      simp only [step, remove]
      split <;> simp

theorem findRun_step_none (proc : String → String) (m : Model) (op : Op)
    (id0 : Nat) (hlt : id0 < m.nextId)
    (h : findRun m.model_run_dict id0 = none) :
    findRun (step proc m op).model_run_dict id0 = none := by
  cases op with
  | requestOp =>
      show findRun (insertRun m.model_run_dict m.nextId _) id0 = none
      rw [findRun_insertRun_ne _ _ _ _ (Nat.ne_of_lt hlt)]
      exact h
  | initOp id cfg =>
      simp only [step, initRun]
      split
      · exact findRun_setRun_none _ _ _ _ h
      · exact h
  | runOp id =>
      simp only [step, run]
      split
      · split
        · exact h
        · exact findRun_setRun_none _ _ _ _ h
      · exact h
  | statusOp id =>
      simp only [step, status]
      split
      · exact findRun_setRun_none _ _ _ _ h
      · exact h
  | submitOp id raw =>
      simp only [step]
      cases hs : store_result proc m id raw with
      | error e => exact h
      | ok t =>
          obtain ⟨m', info, w⟩ := t
          rcases store_result_ok_shape proc m id raw m' info w hs with
            heq | ⟨rOld, v, -, hd, -, -⟩
          · rw [heq]; exact h
          · show findRun m'.model_run_dict id0 = none
            rw [hd]
            exact findRun_setRun_none _ _ _ _ h
  | resultsOp id => exact h
  | removeOp id =>
      simp only [step, remove]
      split
      · exact findRun_eraseRun_none _ _ _ h
      · exact h

theorem findRun_runTrace_none (proc : String → String) :
    ∀ (ops : List Op) (m : Model) (id0 : Nat), id0 < m.nextId →
      findRun m.model_run_dict id0 = none →
      findRun (runTrace proc m ops).model_run_dict id0 = none
  | [], _, _, _, h => h
  | op :: ops, m, id0, hlt, h =>
      findRun_runTrace_none proc ops (step proc m op) id0
        (Nat.lt_of_lt_of_le hlt (step_nextId_le proc m op))
        (findRun_step_none proc m op id0 hlt h)

theorem allocatedIds_le (proc : String → String) :
    ∀ (ops : List Op) (m : Model) (x : Nat),
      x ∈ allocatedIds proc m ops → m.nextId ≤ x := by
  intro ops
  induction ops with
  | nil => intro m x hx; simp [allocatedIds] at hx
  | cons op rest ih =>
      intro m x hx
      have hstep := step_nextId_le proc m op
      cases op with
      | requestOp =>
          simp only [allocatedIds] at hx
          rcases List.mem_cons.mp hx with h1 | h2
          · omega
          · have := ih (step proc m Op.requestOp) x h2
            omega
      | initOp id cfg =>
          have := ih (step proc m (Op.initOp id cfg)) x
            (by simpa [allocatedIds] using hx)
          omega
      | runOp id =>
          have := ih (step proc m (Op.runOp id)) x
            (by simpa [allocatedIds] using hx)
          omega
      | statusOp id =>
          have := ih (step proc m (Op.statusOp id)) x
            (by simpa [allocatedIds] using hx)
          omega
      | submitOp id raw =>
          have := ih (step proc m (Op.submitOp id raw)) x
            (by simpa [allocatedIds] using hx)
          omega
      | resultsOp id =>
          have := ih (step proc m (Op.resultsOp id)) x
            (by simpa [allocatedIds] using hx)
          omega
      | removeOp id =>
          have := ih (step proc m (Op.removeOp id)) x
            (by simpa [allocatedIds] using hx)
          omega

theorem allocatedIds_nodup (proc : String → String) :
    ∀ (ops : List Op) (m : Model), (allocatedIds proc m ops).Nodup := by
  intro ops
  induction ops with
  | nil => intro m; simp [allocatedIds]
  | cons op rest ih =>
      intro m
      cases op with
      | requestOp =>
          simp only [allocatedIds]
          refine List.nodup_cons.mpr ⟨?_, ih _⟩
          intro hmem
          have h1 := allocatedIds_le proc rest (step proc m Op.requestOp)
            m.nextId hmem
          have h2 : (step proc m Op.requestOp).nextId = m.nextId + 1 := rfl
          omega
      | initOp id cfg => simpa [allocatedIds] using ih _
      | runOp id => simpa [allocatedIds] using ih _
      | statusOp id => simpa [allocatedIds] using ih _
      | submitOp id raw => simpa [allocatedIds] using ih _
      | resultsOp id => simpa [allocatedIds] using ih _
      | removeOp id => simpa [allocatedIds] using ih _

theorem findRun_none_of_not_mem_keys (reg : Registry) (id : Nat)
    (h : id ∉ reg.map Prod.fst) : findRun reg id = none := by
  induction reg with
  | nil => simp [findRun]
  | cons p rest ih =>
      obtain ⟨k, v⟩ := p
      simp only [List.map_cons, List.mem_cons] at h
      push_neg at h
      have hk : ¬k = id := fun hk => h.1 hk.symm
      simp [findRun, hk]
      exact ih h.2

theorem findRun_eraseRun_self_nodup (reg : Registry) (id : Nat)
    (h : (reg.map Prod.fst).Nodup) :
    findRun (eraseRun reg id) id = none := by
  induction reg with
  | nil => simp [eraseRun, findRun]
  | cons p rest ih =>
      obtain ⟨k, v⟩ := p
      simp only [List.map_cons, List.nodup_cons] at h
      by_cases hk : k = id
      · simp only [eraseRun, hk, if_true, ite_true]
        exact findRun_none_of_not_mem_keys rest id (hk ▸ h.1)
      · simp [eraseRun, hk, findRun]
        exact ih h.2

/-- On an id absent from the registry, every id-taking operation answers
with the operation-specific ERROR info and leaves the model untouched
(`store_result` returns normally, with no storage write). -/
theorem unknown_id_responses (proc : String → String) (m : Model) (id : Nat)
    (cfg : Option OperaAdapterConfig) (raw : String)
    (h : findRun m.model_run_dict id = none) :
    initRun m id cfg = (m, ⟨id, ModelState.ERROR, none,
        some "Error in Model.initialize(): model_run_id unknown"⟩) ∧
    run m id = (m, ⟨id, ModelState.ERROR, none,
        some "Error in Model.run(): model_run_id unknown"⟩) ∧
    status m id = (m, ⟨id, ModelState.ERROR, none,
        some "Error in Model.status(): model_run_id unknown"⟩) ∧
    store_result proc m id raw = Except.ok (m, ⟨id, ModelState.ERROR, none,
        some "Error in Model.store_result(): model_run_id unknown"⟩, []) ∧
    results m id = ⟨id, ModelState.ERROR, none,
        some "Error in Model.results(): model_run_id unknown"⟩ ∧
    remove m id = (m, ⟨id, ModelState.ERROR, none,
        some "Error in Model.remove(): model_run_id unknown"⟩) := by
  refine ⟨?_, ?_, ?_, ?_, ?_, ?_⟩ <;>
    simp [initRun, run, status, store_result, results, remove, h]

/-- Some-injectivity specialised to the records: used to transport a config
equality through a lookup. -/
theorem config_eq_of_some_eq (r r' : ModelRun) (h : some r = some r') :
    r'.config = r.config := by
  injection h with h
  rw [h]

/-! The claims. -/

/-- C1 (counterexample): with the record for id 0 already in state RUNNING,
`run(0)` returns a RunInfo whose state is RUNNING even though the record's
state was not READY, so "returns state RUNNING if and only if the record
exists and its state is READY" fails in the only-if direction. -/
theorem C1_counterexample :
    (run mRunning 0).2.state = ModelState.RUNNING ∧
    (findRun mRunning.model_run_dict 0).map ModelRun.state ≠
      some ModelState.READY := by decide

/-- C1 (amended): `run(id)` transitions the record to RUNNING exactly when
it exists in state READY, returning a RunInfo with state RUNNING and no
reason; when the record exists in a state other than READY the registry is
left unchanged and the RunInfo carries that unchanged state — which is
RUNNING itself when the record was already RUNNING — together with the
reason "Error: Model is not in READY state". -/
theorem C1_run_amended (m : Model) (id : Nat) (r : ModelRun)
    (h : findRun m.model_run_dict id = some r) :
    (r.state = ModelState.READY →
      run m id =
        (⟨setRun m.model_run_dict id { r with state := ModelState.RUNNING },
           m.nextId, m.hasMinio⟩,
         ⟨id, ModelState.RUNNING, none, none⟩)) ∧
    (r.state ≠ ModelState.READY →
      run m id = (m, ⟨id, r.state, none,
        some "Error: Model is not in READY state"⟩)) := by
  constructor
  · intro hs
    have hset := findRun_setRun_self m.model_run_dict id r
      { r with state := ModelState.RUNNING } h
    simp [run, h, hs, stateOf, hset]
  · intro hs
    simp [run, h, hs]

/-- C1 witness: on a registry holding run 0 in state READY, `run(0)`
transitions it to RUNNING and reports RUNNING with no reason. -/
theorem C1_run_amended_witness :
    run mReady 0 =
      (⟨[(0, ⟨ModelState.RUNNING, none, none⟩)], 1, false⟩,
       ⟨0, ModelState.RUNNING, none, none⟩) :=
  ((C1_run_amended mReady 0 readyRun (by decide)).1 (by decide)).trans
    (by decide)

/-- C2 (counterexample): store_result on run 0 (record state RUNNING,
local-file output path) returns a RunInfo with state SUCCEEDED but leaves
the stored record's state at RUNNING, so the subsequent results(0) reports
RUNNING, not SUCCEEDED as the claim demands. -/
theorem C2_counterexample :
    store_result procId mRunningFile 0 "<xml/>" =
      Except.ok (mRunningFileAfter, ⟨0, ModelState.SUCCEEDED, none, none⟩,
        [StorageWrite.fileWrite "/tmp/out.esdl" "<xml/>"]) ∧
    (results mRunningFileAfter 0).state = ModelState.RUNNING ∧
    ModelState.RUNNING ≠ ModelState.SUCCEEDED := by decide

/-- C2 (amended): for an id present in the registry, a successful
store_result returns a RunInfo with state SUCCEEDED and sets the record's
result field, but never writes the record's state field, so a subsequent
results(id) reports the record's prior state unchanged. -/
theorem C2_store_result_amended (proc : String → String) (m : Model)
    (id : Nat) (raw : String) (r : ModelRun) (m' : Model)
    (info : ModelRunInfo) (w : List StorageWrite)
    (hr : findRun m.model_run_dict id = some r)
    (h : store_result proc m id raw = Except.ok (m', info, w)) :
    info.state = ModelState.SUCCEEDED ∧
    (∃ v, findRun m'.model_run_dict id = some { r with result := some v }) ∧
    (results m' id).state = r.state := by
  by_cases hres : proc raw = ""
  · have heq : store_result proc m id raw =
        Except.ok (⟨setRun m.model_run_dict id
            { r with result := some (StoredResult.rawRes (proc raw)) },
          m.nextId, m.hasMinio⟩,
         ⟨id, ModelState.SUCCEEDED, none, none⟩, []) := by
      simp [store_result, hr, hres]
    rw [heq] at h
    simp only [Except.ok.injEq, Prod.mk.injEq] at h
    obtain ⟨h1, h2, -⟩ := h
    subst h1
    subst h2
    have hset := findRun_setRun_self m.model_run_dict id r
      { r with result := some (StoredResult.rawRes (proc raw)) } hr
    exact ⟨rfl, ⟨StoredResult.rawRes (proc raw), hset⟩,
      by simp [results, hset]⟩
  · cases hcfg : r.config with
    | none =>
        have : store_result proc m id raw = Except.error
            "AttributeError: NoneType object has no attribute output_esdl_file_path" := by
          simp [store_result, hr, hres, hcfg]
        rw [this] at h
        exact absurd h (by simp)
    | some cfg =>
        cases hpath : cfg.output_esdl_file_path with
        | none =>
            have : store_result proc m id raw =
                Except.error "TypeError: path is None" := by
              simp [store_result, hr, hres, hcfg, hpath]
            rw [this] at h
            exact absurd h (by simp)
        | some path =>
            by_cases hmin : m.hasMinio
            · have heq : store_result proc m id raw =
                  Except.ok (⟨setRun m.model_run_dict id
                      { r with result := some (StoredResult.pathRes path) },
                    m.nextId, m.hasMinio⟩,
                   ⟨id, ModelState.SUCCEEDED, none, none⟩,
                   [StorageWrite.minioPut ((path.splitOn "/").headD "")
                     (String.intercalate "/" (path.splitOn "/").tail)
                     (proc raw)]) := by
                simp [store_result, hr, hres, hcfg, hpath, hmin]
              rw [heq] at h
              simp only [Except.ok.injEq, Prod.mk.injEq] at h
              obtain ⟨h1, h2, -⟩ := h
              subst h1
              subst h2
              have hset := findRun_setRun_self m.model_run_dict id r
                { r with result := some (StoredResult.pathRes path) } hr
              refine ⟨rfl, ⟨StoredResult.pathRes path, ?_⟩,
                by simp [results, hset]⟩
              rw [← hcfg]
              exact hset
            · by_cases hp7 : path.take 7 = "file://"
              · have heq : store_result proc m id raw =
                    Except.ok (⟨setRun m.model_run_dict id
                        { r with result := some (StoredResult.pathRes path) },
                      m.nextId, m.hasMinio⟩,
                     ⟨id, ModelState.SUCCEEDED, none, none⟩,
                     [StorageWrite.fileWrite (path.drop 7) (proc raw)]) := by
                  simp [store_result, hr, hres, hcfg, hpath, hmin, hp7]
                rw [heq] at h
                simp only [Except.ok.injEq, Prod.mk.injEq] at h
                obtain ⟨h1, h2, -⟩ := h
                subst h1
                subst h2
                have hset := findRun_setRun_self m.model_run_dict id r
                  { r with result := some (StoredResult.pathRes path) } hr
                refine ⟨rfl, ⟨StoredResult.pathRes path, ?_⟩,
                  by simp [results, hset]⟩
                rw [← hcfg]
                exact hset
              · have : store_result proc m id raw = Except.error
                    ("Don't know how to write file " ++ path) := by
                  simp [store_result, hr, hres, hcfg, hpath, hmin, hp7]
                rw [this] at h
                exact absurd h (by simp)

/-- C2 witness: the amended statement instantiated on a RUNNING record with
a local-file output path. -/
theorem C2_store_result_amended_witness :
    (⟨0, ModelState.SUCCEEDED, none, none⟩ : ModelRunInfo).state =
      ModelState.SUCCEEDED ∧
    (∃ v, findRun mRunningFileAfter.model_run_dict 0 =
      some { runningFileRun with result := some v }) ∧
    (results mRunningFileAfter 0).state = runningFileRun.state :=
  C2_store_result_amended procId mRunningFile 0 "<xml/>" runningFileRun
    mRunningFileAfter ⟨0, ModelState.SUCCEEDED, none, none⟩
    [StorageWrite.fileWrite "/tmp/out.esdl" "<xml/>"]
    (by decide) (by decide)

/-- C3 (counterexample): with a processor that maps the raw result "x" to
the falsy "", store_result stores {"result": ""} — the processed value —
rather than {"result": "x"} holding the raw result the claim demands. -/
theorem C3_counterexample :
    store_result procEmpty mRunning 0 "x" =
      Except.ok (mRunningAfterEmpty, ⟨0, ModelState.SUCCEEDED, none, none⟩,
        []) ∧
    (findRun mRunningAfterEmpty.model_run_dict 0).map ModelRun.result ≠
      some (some (StoredResult.rawRes "x")) := by decide

/-- C3 (amended): for an id present in the registry, when the processor's
output is the empty (falsy) value, store_result sets the record's result to
the mapping {"result": processedResult} — the processor's falsy output, not
the raw input — and performs no storage write. -/
theorem C3_store_result_falsy (proc : String → String) (m : Model)
    (id : Nat) (raw : String) (r : ModelRun)
    (hr : findRun m.model_run_dict id = some r)
    (hres : proc raw = "") :
    store_result proc m id raw =
      Except.ok (⟨setRun m.model_run_dict id
          { r with result := some (StoredResult.rawRes (proc raw)) },
        m.nextId, m.hasMinio⟩,
       ⟨id, ModelState.SUCCEEDED, none, none⟩, []) := by
  simp [store_result, hr, hres]

/-- C3 witness: the amended statement instantiated on the falsy processor
and raw result "x". -/
theorem C3_store_result_falsy_witness :
    store_result procEmpty mRunning 0 "x" =
      Except.ok (mRunningAfterEmpty,
        ⟨0, ModelState.SUCCEEDED, none, none⟩, []) :=
  (C3_store_result_falsy procEmpty mRunning 0 "x" runningRun (by decide)
    rfl).trans (by decide)

/-- C4 (code bug): deleting run 0 from a registry whose remaining record,
run 1, is in state PENDING leaves run 1 in PENDING: the scan at
model.py:179-183 evaluates the comparison `m.state == ModelState.ACCEPTED`
and discards its Boolean result instead of assigning, so no PENDING run is
ever promoted to ACCEPTED, contradicting the code's own comment and the
claim. -/
theorem C4_remove_no_promotion :
    remove mRunPending 0 =
      (⟨[(1, pendingRun)], 2, false⟩, ⟨0, ModelState.UNKNOWN, none, none⟩) ∧
    pendingRun.state = ModelState.PENDING ∧
    ModelState.PENDING ≠ ModelState.ACCEPTED := by decide

/-- C5 (counterexample): the trace request; initialize(0) with the Python
default config None; run(0), executed from the empty adapter state, leaves
run 0 in state RUNNING with config None — a RUNNING record with a null
config is reachable, so run does not require a non-null config. -/
theorem C5_counterexample :
    findRun (runTrace procEmpty mEmpty
        [Op.requestOp, Op.initOp 0 none, Op.runOp 0]).model_run_dict 0 =
      some ⟨ModelState.RUNNING, none, none⟩ ∧
    ModelRun.config ⟨ModelState.RUNNING, none, none⟩ = none := by decide

/-- C5 (amended): among the operations only initialize writes a record's
config field (request creates records with config None and, under the
freshness invariant with duplicate-free keys, touches no existing record),
and run transitions a READY record to RUNNING with no requirement on
config — a record can therefore be RUNNING while its config is None. -/
theorem C5_config_amended :
    (∀ (proc : String → String) (m : Model) (op : Op) (id : Nat)
        (r r' : ModelRun),
        inv m → (m.model_run_dict.map Prod.fst).Nodup →
        (∀ cfg, op ≠ Op.initOp id cfg) →
        findRun m.model_run_dict id = some r →
        findRun (step proc m op).model_run_dict id = some r' →
        r'.config = r.config) ∧
    (∀ (m : Model) (id : Nat) (r : ModelRun),
        findRun m.model_run_dict id = some r →
        r.state = ModelState.READY →
        (run m id).2.state = ModelState.RUNNING) := by
  constructor
  · intro proc m op id r r' hinv hnodup hne hr h'
    cases op with
    | requestOp =>
        have hfresh : findRun m.model_run_dict m.nextId = none :=
          findRun_isNone_of_lt _ _ hinv
        have hid : id ≠ m.nextId := by
          intro he
          rw [he, hfresh] at hr
          exact Option.noConfusion hr
        have hstep : findRun (step proc m Op.requestOp).model_run_dict id =
            findRun m.model_run_dict id :=
          findRun_insertRun_ne _ _ _ _ hid
        rw [hstep, hr] at h'
        exact config_eq_of_some_eq _ _ h'
    | initOp id2 cfg2 =>
        have hne2 : id2 ≠ id := fun he => hne cfg2 (by rw [he])
        simp only [step, initRun] at h'
        cases hf2 : findRun m.model_run_dict id2 with
        | some r2 =>
            simp only [hf2] at h'
            rw [findRun_setRun_ne _ _ _ _ (Ne.symm hne2), hr] at h'
            exact config_eq_of_some_eq _ _ h'
        | none =>
            simp only [hf2] at h'
            rw [hr] at h'
            exact config_eq_of_some_eq _ _ h'
    | runOp id2 =>
        simp only [step, run] at h'
        cases hf2 : findRun m.model_run_dict id2 with
        | some r2 =>
            simp only [hf2] at h'
            by_cases hs2 : r2.state = ModelState.READY
            · simp only [hs2, ne_eq, not_true_eq_false, if_false,
                ite_false] at h'
              by_cases hid : id2 = id
              · subst hid
                have hr2 : r2 = r := by
                  have := hf2.symm.trans hr
                  injection this
                have hset := findRun_setRun_self m.model_run_dict id2 r2
                  { r2 with state := ModelState.RUNNING } hf2
                rw [hset] at h'
                injection h' with h'
                rw [← h']
                simp [hr2]
              · rw [findRun_setRun_ne _ _ _ _ (fun he => hid he.symm),
                  hr] at h'
                exact config_eq_of_some_eq _ _ h'
            · simp only [hs2, ne_eq, not_false_eq_true, if_true,
                ite_true] at h'
              rw [hr] at h'
              exact config_eq_of_some_eq _ _ h'
        | none =>
            simp only [hf2] at h'
            rw [hr] at h'
            exact config_eq_of_some_eq _ _ h'
    | statusOp id2 =>
        simp only [step, status] at h'
        cases hf2 : findRun m.model_run_dict id2 with
        | some r2 =>
            simp only [hf2] at h'
            by_cases hid : id2 = id
            · subst hid
              have hr2 : r2 = r := by
                have := hf2.symm.trans hr
                injection this
              have hset := findRun_setRun_self m.model_run_dict id2 r2
                { r2 with state := ModelState.SUCCEEDED } hf2
              rw [hset] at h'
              injection h' with h'
              rw [← h']
              simp [hr2]
            · rw [findRun_setRun_ne _ _ _ _ (fun he => hid he.symm),
                hr] at h'
              exact config_eq_of_some_eq _ _ h'
        | none =>
            simp only [hf2] at h'
            rw [hr] at h'
            exact config_eq_of_some_eq _ _ h'
    | submitOp id2 raw2 =>
        simp only [step] at h'
        cases hs : store_result proc m id2 raw2 with
        | error e =>
            simp only [hs] at h'
            rw [hr] at h'
            exact config_eq_of_some_eq _ _ h'
        | ok t =>
            obtain ⟨m2, info2, w2⟩ := t
            simp only [hs] at h'
            rcases store_result_ok_shape proc m id2 raw2 m2 info2 w2 hs with
              heq | ⟨rOld, v, hfOld, hd, -, -⟩
            · rw [heq, hr] at h'
              exact config_eq_of_some_eq _ _ h'
            · rw [hd] at h'
              by_cases hid : id2 = id
              · subst hid
                have hrOld : rOld = r := by
                  have := hfOld.symm.trans hr
                  injection this
                have hset := findRun_setRun_self m.model_run_dict id2 rOld
                  { rOld with result := some v } hfOld
                rw [hset] at h'
                injection h' with h'
                rw [← h']
                simp [hrOld]
              · rw [findRun_setRun_ne _ _ _ _ (fun he => hid he.symm),
                  hr] at h'
                exact config_eq_of_some_eq _ _ h'
    | resultsOp id2 =>
        simp only [step] at h'
        rw [hr] at h'
        exact config_eq_of_some_eq _ _ h'
    | removeOp id2 =>
        simp only [step, remove] at h'
        cases hf2 : findRun m.model_run_dict id2 with
        | some r2 =>
            simp only [hf2] at h'
            by_cases hid : id2 = id
            · subst hid
              rw [findRun_eraseRun_self_nodup _ _ hnodup] at h'
              exact Option.noConfusion h'
            · rw [findRun_eraseRun_ne _ _ _ (fun he => hid he.symm),
                hr] at h'
              exact config_eq_of_some_eq _ _ h'
        | none =>
            simp only [hf2] at h'
            rw [hr] at h'
            exact config_eq_of_some_eq _ _ h'
  · intro m id r h hs
    have hset := findRun_setRun_self m.model_run_dict id r
      { r with state := ModelState.RUNNING } h
    simp [run, h, hs, stateOf, hset]

/-- C5 witness: a status call on a registry holding run 0 in READY leaves
run 0's config unchanged, and run on that registry yields state RUNNING. -/
theorem C5_config_amended_witness :
    ModelRun.config ⟨ModelState.SUCCEEDED, none, none⟩ = readyRun.config ∧
    (run mReady 0).2.state = ModelState.RUNNING :=
  ⟨C5_config_amended.1 procEmpty mReady (Op.statusOp 0) 0 readyRun
      ⟨ModelState.SUCCEEDED, none, none⟩ (by unfold inv; decide) (by decide)
      (fun cfg h => Op.noConfusion h) (by decide) (by decide),
   C5_config_amended.2 mReady 0 readyRun (by decide) (by decide)⟩

/-- C6: request always succeeds — under the key-freshness invariant it adds
exactly one new entry, an ACCEPTED record with config None and result None,
under the previously-absent id, and returns that id with state ACCEPTED —
and the ids handed out by the request calls of any operation sequence are
pairwise distinct (never reused, also after removals). -/
theorem C6_request_fresh :
    (∀ m : Model, inv m →
      findRun m.model_run_dict m.nextId = none ∧
      (request m).1.model_run_dict =
        m.model_run_dict ++ [(m.nextId, ⟨ModelState.ACCEPTED, none, none⟩)] ∧
      (request m).1.model_run_dict.length = m.model_run_dict.length + 1 ∧
      findRun (request m).1.model_run_dict m.nextId =
        some ⟨ModelState.ACCEPTED, none, none⟩ ∧
      (request m).2 = ⟨m.nextId, ModelState.ACCEPTED, none, none⟩) ∧
    (∀ (proc : String → String) (m : Model) (ops : List Op),
      (allocatedIds proc m ops).Nodup) := by
  constructor
  · intro m hinv
    have habs : findRun m.model_run_dict m.nextId = none :=
      findRun_isNone_of_lt _ _ hinv
    have hins : insertRun m.model_run_dict m.nextId
        ⟨ModelState.ACCEPTED, none, none⟩ =
        m.model_run_dict ++
          [(m.nextId, ⟨ModelState.ACCEPTED, none, none⟩)] := by
      simp [insertRun, habs]
    have hself := findRun_insertRun_self m.model_run_dict m.nextId
      ⟨ModelState.ACCEPTED, none, none⟩
    have hdict : (request m).1.model_run_dict =
        m.model_run_dict ++
          [(m.nextId, ⟨ModelState.ACCEPTED, none, none⟩)] := by
      simpa [request] using hins
    refine ⟨habs, hdict, ?_, ?_, ?_⟩
    · rw [hdict]
      simp
    · simpa [request] using hself
    · simp [request, stateOf, hself]
  · intro proc m ops
    exact allocatedIds_nodup proc ops m

/-- C6 witness: the freshness part instantiated on the empty adapter
state. -/
theorem C6_request_fresh_witness :
    findRun mEmpty.model_run_dict mEmpty.nextId = none ∧
    (request mEmpty).1.model_run_dict =
      mEmpty.model_run_dict ++
        [(mEmpty.nextId, ⟨ModelState.ACCEPTED, none, none⟩)] ∧
    (request mEmpty).1.model_run_dict.length =
      mEmpty.model_run_dict.length + 1 ∧
    findRun (request mEmpty).1.model_run_dict mEmpty.nextId =
      some ⟨ModelState.ACCEPTED, none, none⟩ ∧
    (request mEmpty).2 = ⟨mEmpty.nextId, ModelState.ACCEPTED, none, none⟩ :=
  C6_request_fresh.1 mEmpty (by unfold inv; decide)

/-- C7: every id-taking operation (initialize, run, status, submitResult,
results, remove) called with an id absent from the registry returns a
RunInfo with state ERROR and a non-empty operation-specific reason, never
raises, and leaves the model — registry included — completely unchanged. -/
theorem C7_unknown_id (proc : String → String) (m : Model) (id : Nat)
    (cfg : Option OperaAdapterConfig) (raw : String)
    (h : findRun m.model_run_dict id = none) :
    (initRun m id cfg = (m, ⟨id, ModelState.ERROR, none,
        some "Error in Model.initialize(): model_run_id unknown"⟩) ∧
     run m id = (m, ⟨id, ModelState.ERROR, none,
        some "Error in Model.run(): model_run_id unknown"⟩) ∧
     status m id = (m, ⟨id, ModelState.ERROR, none,
        some "Error in Model.status(): model_run_id unknown"⟩) ∧
     store_result proc m id raw = Except.ok (m, ⟨id, ModelState.ERROR, none,
        some "Error in Model.store_result(): model_run_id unknown"⟩, []) ∧
     results m id = ⟨id, ModelState.ERROR, none,
        some "Error in Model.results(): model_run_id unknown"⟩ ∧
     remove m id = (m, ⟨id, ModelState.ERROR, none,
        some "Error in Model.remove(): model_run_id unknown"⟩)) ∧
    (("Error in Model.initialize(): model_run_id unknown" : String) ≠ "" ∧
     ("Error in Model.run(): model_run_id unknown" : String) ≠ "" ∧
     ("Error in Model.status(): model_run_id unknown" : String) ≠ "" ∧
     ("Error in Model.store_result(): model_run_id unknown" : String) ≠ "" ∧
     ("Error in Model.results(): model_run_id unknown" : String) ≠ "" ∧
     ("Error in Model.remove(): model_run_id unknown" : String) ≠ "") :=
  ⟨unknown_id_responses proc m id cfg raw h, by decide⟩

/-- C7 witness: initialize on the empty registry answers the ERROR info and
leaves the model unchanged. -/
theorem C7_unknown_id_witness :
    initRun mEmpty 0 none = (mEmpty, ⟨0, ModelState.ERROR, none,
      some "Error in Model.initialize(): model_run_id unknown"⟩) :=
  (C7_unknown_id procEmpty mEmpty 0 none "" (by decide)).1.1

/-- C8: remove on a present id deletes the record and returns a RunInfo
with state UNKNOWN; after any sequence of subsequent operations the id is
still absent from the registry, and every operation invoked with it then
answers with state ERROR (the unknown-run response). -/
theorem C8_remove_then_error (proc : String → String) (m : Model) (id : Nat)
    (r : ModelRun) (ops : List Op) (cfg : Option OperaAdapterConfig)
    (raw : String)
    (hinv : inv m) (hnodup : (m.model_run_dict.map Prod.fst).Nodup)
    (hr : findRun m.model_run_dict id = some r) :
    (remove m id).2 = ⟨id, ModelState.UNKNOWN, none, none⟩ ∧
    findRun (remove m id).1.model_run_dict id = none ∧
    findRun (afterRemove proc m id ops).model_run_dict id = none ∧
    (initRun (afterRemove proc m id ops) id cfg).2.state =
      ModelState.ERROR ∧
    (run (afterRemove proc m id ops) id).2.state = ModelState.ERROR ∧
    (status (afterRemove proc m id ops) id).2.state = ModelState.ERROR ∧
    store_result proc (afterRemove proc m id ops) id raw =
      Except.ok (afterRemove proc m id ops,
        ⟨id, ModelState.ERROR, none,
         some "Error in Model.store_result(): model_run_id unknown"⟩, []) ∧
    (results (afterRemove proc m id ops) id).state = ModelState.ERROR ∧
    (remove (afterRemove proc m id ops) id).2.state = ModelState.ERROR := by
  have hlt : id < m.nextId := hinv _ (findRun_some_mem _ _ _ hr)
  have h1 : remove m id =
      (⟨eraseRun m.model_run_dict id, m.nextId, m.hasMinio⟩,
       ⟨id, ModelState.UNKNOWN, none, none⟩) := by
    simp [remove, hr]
  have habs0 : findRun (remove m id).1.model_run_dict id = none := by
    rw [h1]
    exact findRun_eraseRun_self_nodup _ _ hnodup
  have hlt0 : id < (remove m id).1.nextId := by rw [h1]; exact hlt
  have habsF : findRun (afterRemove proc m id ops).model_run_dict id =
      none :=
    findRun_runTrace_none proc ops _ id hlt0 habs0
  obtain ⟨e1, e2, e3, e4, e5, e6⟩ :=
    unknown_id_responses proc (afterRemove proc m id ops) id cfg raw habsF
  exact ⟨by rw [h1], habs0, habsF, by rw [e1], by rw [e2], by rw [e3], e4,
    by rw [e5], by rw [e6]⟩

/-- C8 witness: removing run 0 from a two-record registry and then issuing a
request keeps id 0 absent. -/
theorem C8_remove_then_error_witness :
    (remove mRunPending 0).2 = ⟨0, ModelState.UNKNOWN, none, none⟩ ∧
    findRun (remove mRunPending 0).1.model_run_dict 0 = none ∧
    findRun (afterRemove procEmpty mRunPending 0
        [Op.requestOp]).model_run_dict 0 = none := by
  have h := C8_remove_then_error procEmpty mRunPending 0 runningRun
    [Op.requestOp] none "" (by unfold inv; decide) (by decide) (by decide)
  exact ⟨h.1, h.2.1, h.2.2.1⟩

/-- C9: in local-file mode (no Minio client configured), a truthy processed
result with a configured output path that does not begin with "file://"
makes store_result raise IOError("Don't know how to write file " + path)
instead of returning a RunInfo, and the aborted call leaves the model — in
particular the record's state and result fields — unchanged. -/
theorem C9_unsupported_scheme (proc : String → String) (m : Model)
    (id : Nat) (r : ModelRun) (cfg : OperaAdapterConfig) (path : String)
    (raw : String)
    (hm : m.hasMinio = false)
    (hr : findRun m.model_run_dict id = some r)
    (hcfg : r.config = some cfg)
    (hpath : cfg.output_esdl_file_path = some path)
    (hp7 : path.take 7 ≠ "file://")
    (hres : proc raw ≠ "") :
    store_result proc m id raw =
      Except.error ("Don't know how to write file " ++ path) ∧
    step proc m (Op.submitOp id raw) = m := by
  have he : store_result proc m id raw =
      Except.error ("Don't know how to write file " ++ path) := by
    simp [store_result, hr, hres, hcfg, hpath, hm, hp7]
  refine ⟨he, ?_⟩
  simp [step, he]

/-- C9 witness: an s3:// output path under local-file mode raises and
leaves the model unchanged. -/
theorem C9_unsupported_scheme_witness :
    store_result procId mRunningS3 0 "x" =
      Except.error
        ("Don't know how to write file " ++ "s3://bucket/out.esdl") ∧
    step procId mRunningS3 (Op.submitOp 0 "x") = mRunningS3 :=
  C9_unsupported_scheme procId mRunningS3 0 s3Run cfgS3
    "s3://bucket/out.esdl" "x" rfl (by decide) rfl rfl (by decide)
    (by decide)

/-- C10: remove(id) never modifies any record other than the one it
deletes: every other id keeps exactly its record — state, config and
result — across the call, including when records in state PENDING exist. -/
theorem C10_remove_frame (m : Model) (id idOther : Nat) (rOther : ModelRun)
    (hne : idOther ≠ id)
    (h : findRun m.model_run_dict idOther = some rOther) :
    findRun (remove m id).1.model_run_dict idOther = some rOther := by
  simp only [remove]
  cases hf : findRun m.model_run_dict id with
  | some r =>
      simp only [hf]
      show findRun (eraseRun m.model_run_dict id) idOther = some rOther
      rw [findRun_eraseRun_ne _ _ _ hne]
      exact h
  | none =>
      simp only [hf]
      exact h

/-- C10 witness: deleting run 0 leaves the PENDING record of run 1
untouched. -/
theorem C10_remove_frame_witness :
    findRun (remove mRunPending 0).1.model_run_dict 1 = some pendingRun :=
  C10_remove_frame mRunPending 0 1 pendingRun (by decide) (by decide)

end Adapter
